import Mathlib

/-!
Verification of the abuse-guard / rate-limiter layer of the LINE webhook bot
(`app.py`).  Timestamps are modeled as natural numbers (seconds); the Python
code uses non-negative `time.time()` floats, and every comparison the guard
performs (`now - last < 5`, `now - ts > 60`, `now < blocked_until`) has the
same truth value under truncated natural subtraction as under real
subtraction, because a negative real difference fails both `> 60` and
succeeds `< 5` exactly as the truncated value `0` does.

The per-user `defaultdict` maps of `app.py` are modeled as total functions
from user identifier to the dict's default (`0.0` for times, the empty deque
for histories); reading a missing key in a `defaultdict` observably yields
the default, which the total-function view captures.
-/

namespace LineBot

/-- `RATE_MIN_INTERVAL_SEC = 5` (app.py line 24). -/
def RATE_MIN_INTERVAL_SEC : Nat := 5

/-- `IMG_MAX_PER_MIN = 3` (app.py line 26). -/
def IMG_MAX_PER_MIN : Nat := 3

/-- `MSG_MAX_PER_MIN = 15` (app.py line 27). -/
def MSG_MAX_PER_MIN : Nat := 15

/-- `TEMP_BLOCK_MINUTES = 30` (app.py line 28). -/
def TEMP_BLOCK_MINUTES : Nat := 30

/-- The in-memory per-user state of the guard:
`_last_msg_time`, `_img_history`, `_msg_history`, `_blocked_until`
(app.py lines 31-34), each a `defaultdict` viewed as a total function. -/
structure GuardState where
  last_msg_time : String → Nat
  img_history : String → List Nat
  msg_history : String → List Nat
  blocked_until : String → Nat

/-- The state at process start: every `defaultdict` is empty, so every key
reads as the default (`0` / `[]`). -/
def initState : GuardState :=
  ⟨fun _ => 0, fun _ => [], fun _ => [], fun _ => 0⟩

/-- `is_blocked(user_id)` (app.py lines 161-162):
`time.time() < _blocked_until[user_id]`, with the current clock passed
explicitly as `now`. -/
def is_blocked (s : GuardState) (u : String) (now : Nat) : Bool :=
  decide (now < s.blocked_until u)

/-- `block_user(user_id, minutes)` (app.py lines 164-165):
`_blocked_until[user_id] = time.time() + minutes * 60`. -/
def block_user (s : GuardState) (u : String) (now : Nat) (minutes : Nat) :
    GuardState :=
  { s with blocked_until := Function.update s.blocked_until u (now + minutes * 60) }

/-- `too_frequent(user_id)` (app.py lines 167-173): returns `True` without
touching the state when `now - _last_msg_time[user_id] <
RATE_MIN_INTERVAL_SEC`; otherwise stores `now` and returns `False`. -/
def too_frequent (s : GuardState) (u : String) (now : Nat) :
    Bool × GuardState :=
  if now - s.last_msg_time u < RATE_MIN_INTERVAL_SEC then (true, s)
  else (false, { s with last_msg_time := Function.update s.last_msg_time u now })

/-- `deque(maxlen=60).append(t)`: appending to a full deque discards the
oldest (leftmost) entry (app.py lines 32-33 create the history deques with
`maxlen=60`). -/
def dequeAppend (cap : Nat) (xs : List Nat) (t : Nat) : List Nat :=
  (xs ++ [t]).drop ((xs ++ [t]).length - cap)

/-- The lazy-eviction loop
`while h and now - h[0] > 60: h.popleft()` (app.py lines 179-180, 188-189). -/
def evictOld (now : Nat) (xs : List Nat) : List Nat :=
  xs.dropWhile (fun t => decide (now - t > 60))

/-- The two warning outcomes of `record_and_check_limits`:
`TooManyMessages` stands for the message-flood warning string returned at
app.py line 184, `TooManyImages` for the image-flood warning string
returned at line 192. -/
inductive Warning where
  | TooManyMessages
  | TooManyImages
deriving DecidableEq

/-- `record_and_check_limits(user_id, is_image)` (app.py lines 175-194):
append `now` to `_msg_history[user_id]`, evict entries older than 60s, warn
and block when the count exceeds `MSG_MAX_PER_MIN`; otherwise, for images,
do the same against `_img_history[user_id]` and `IMG_MAX_PER_MIN`. -/
def record_and_check_limits (s : GuardState) (u : String) (now : Nat)
    (is_image : Bool) : Option Warning × GuardState :=
  let mh := evictOld now (dequeAppend 60 (s.msg_history u) now)
  let s1 : GuardState :=
    { s with msg_history := Function.update s.msg_history u mh }
  if mh.length > MSG_MAX_PER_MIN then
    (some Warning.TooManyMessages, block_user s1 u now TEMP_BLOCK_MINUTES)
  else if is_image then
    let ih := evictOld now (dequeAppend 60 (s1.img_history u) now)
    let s2 : GuardState :=
      { s1 with img_history := Function.update s1.img_history u ih }
    if ih.length > IMG_MAX_PER_MIN then
      (some Warning.TooManyImages, block_user s2 u now TEMP_BLOCK_MINUTES)
    else (none, s2)
  else (none, s1)

/-- Run a sequence of `record_and_check_limits` calls for one user,
collecting each call's returned warning and threading the state. -/
def runRecords (s : GuardState) (u : String) (ts : List Nat)
    (is_image : Bool) : List (Option Warning) × GuardState :=
  match ts with
  | [] => ([], s)
  | t :: rest =>
    let r := record_and_check_limits s u t is_image
    let rr := runRecords r.2 u rest is_image
    (r.1 :: rr.1, rr.2)

/-- `source.get("userId") or "unknown"` (app.py line 219): a missing or
empty (falsy) user identifier is replaced by the literal `"unknown"`. -/
def extract_user (userId : Option String) : String :=
  match userId with
  | none => "unknown"
  | some s => if s = "" then "unknown" else s

/-- The four outcomes of the webhook's guard pipeline for one event:
silently dropped because blocked (app.py line 220), silently dropped as too
frequent (line 222), answered with a warning (lines 230-233), or accepted
for downstream processing. -/
inductive Decision where
  | droppedBlocked
  | droppedFrequent
  | warned (w : Warning)
  | accepted
deriving DecidableEq

/-- The guard part of the webhook dispatcher (app.py lines 218-233):
extract the user identifier, then `is_blocked` → `too_frequent` →
`record_and_check_limits`, short-circuiting in that order. -/
def dispatch (s : GuardState) (userId : Option String) (now : Nat)
    (is_image : Bool) : Decision × GuardState :=
  let u := extract_user userId
  if is_blocked s u now then (Decision.droppedBlocked, s)
  else
    let tf := too_frequent s u now
    if tf.1 then (Decision.droppedFrequent, tf.2)
    else
      let rc := record_and_check_limits tf.2 u now is_image
      match rc.1 with
      | some w => (Decision.warned w, rc.2)
      | none => (Decision.accepted, rc.2)

/-- One guard operation, tagged with the clock value at which it runs. -/
inductive GuardOp where
  | isBlockedOp (u : String) (now : Nat)
  | tooFrequentOp (u : String) (now : Nat)
  | recordOp (u : String) (now : Nat) (is_image : Bool)
  | blockOp (u : String) (now : Nat) (minutes : Nat)

/-- The clock value of a guard operation. -/
def opTime : GuardOp → Nat
  | GuardOp.isBlockedOp _ now => now
  | GuardOp.tooFrequentOp _ now => now
  | GuardOp.recordOp _ now _ => now
  | GuardOp.blockOp _ now _ => now

/-- Whether an explicit block uses the standard `TEMP_BLOCK_MINUTES`
duration (non-block operations trivially qualify). -/
def opStdBlock : GuardOp → Bool
  | GuardOp.blockOp _ _ m => decide (m = TEMP_BLOCK_MINUTES)
  | _ => true

/-- State transition of one guard operation (`is_blocked` is a pure read). -/
def applyOp (s : GuardState) : GuardOp → GuardState
  | GuardOp.isBlockedOp _ _ => s
  | GuardOp.tooFrequentOp u now => (too_frequent s u now).2
  | GuardOp.recordOp u now b => (record_and_check_limits s u now b).2
  | GuardOp.blockOp u now m => block_user s u now m

/-- A deque append below capacity is a plain append. -/
lemma dequeAppend_small (xs : List Nat) (t : Nat) (h : xs.length < 60) :
    dequeAppend 60 xs t = xs ++ [t] := by
  unfold dequeAppend
  have h0 : (xs ++ [t]).length - 60 = 0 := by
    simp only [List.length_append, List.length_singleton]
    omega
  rw [h0, List.drop_zero]

/-- A deque append always ends in the new element, preceded by a sublist of
the old contents. -/
lemma dequeAppend_shape (xs : List Nat) (t : Nat) :
    ∃ ys, dequeAppend 60 xs t = ys ++ [t] ∧ ys.Sublist xs := by
  refine ⟨xs.drop ((xs ++ [t]).length - 60), ?_, List.drop_sublist _ _⟩
  unfold dequeAppend
  rw [List.drop_append_of_le_length]
  simp only [List.length_append, List.length_singleton]
  omega

/-- `dropWhile` removes nothing when the predicate fails everywhere. -/
lemma dropWhile_all_false {p : Nat → Bool} :
    ∀ {l : List Nat}, (∀ x ∈ l, p x = false) → l.dropWhile p = l
  | [], _ => rfl
  | a :: l, h => by
    have ha : p a = false := h a (by simp)
    simp [List.dropWhile_cons, ha]

/-- An element on which the predicate fails survives `dropWhile`. -/
lemma mem_dropWhile_of_neg {p : Nat → Bool} {a : Nat} :
    ∀ {l : List Nat}, p a = false → a ∈ l → a ∈ l.dropWhile p := by
  intro l
  induction l with
  | nil => intro _ h; cases h
  | cons b l ih =>
    intro hp hm
    by_cases hb : p b = true
    · rw [List.dropWhile_cons_of_pos hb]
      rcases List.mem_cons.mp hm with rfl | hm
      · rw [hp] at hb; cases hb
      · exact ih hp hm
    · rw [List.dropWhile_cons_of_neg hb]
      exact hm

/-- Eviction removes nothing when every entry is within the window. -/
lemma evictOld_all_recent (now : Nat) (xs : List Nat)
    (h : ∀ x ∈ xs, now - x ≤ 60) : evictOld now xs = xs := by
  apply dropWhile_all_false
  intro x hx
  simp only [decide_eq_false_iff_not, gt_iff_lt, not_lt]
  exact h x hx

/-- The timestamp just appended always survives the eviction pass. -/
lemma now_mem_evict_append (now : Nat) (xs : List Nat) :
    now ∈ evictOld now (dequeAppend 60 xs now) := by
  obtain ⟨ys, hy, -⟩ := dequeAppend_shape xs now
  rw [hy]
  apply mem_dropWhile_of_neg
  · simp
  · simp

/-- After appending `now` to a sorted history and evicting, every surviving
entry is within 60 seconds of `now`. -/
lemma evict_bound_aux (now : Nat) :
    ∀ ys : List Nat, List.Pairwise (· ≤ ·) ys →
      ∀ t ∈ evictOld now (ys ++ [now]), now - t ≤ 60 := by
  intro ys
  induction ys with
  | nil =>
    intro _ t ht
    simp only [List.nil_append, evictOld] at ht
    rw [dropWhile_all_false (by simp)] at ht
    simp only [List.mem_singleton] at ht
    omega
  | cons a ys ih =>
    intro hp t ht
    have ha := List.pairwise_cons.mp hp
    by_cases hcut : now - a > 60
    · rw [List.cons_append, evictOld,
        List.dropWhile_cons_of_pos (by simpa using hcut)] at ht
      exact ih ha.2 t ht
    · rw [List.cons_append, evictOld,
        List.dropWhile_cons_of_neg (by simpa using hcut)] at ht
      rcases List.mem_cons.mp ht with rfl | ht
      · omega
      · rcases List.mem_append.mp ht with ht | ht
        · have := ha.1 t ht
          omega
        · simp only [List.mem_singleton] at ht
          subst ht
          omega

/-- A full record step keeps only entries within 60 seconds of `now` in the
message history, provided the prior history was sorted. -/
lemma evict_bound (now : Nat) (xs : List Nat)
    (h : List.Pairwise (· ≤ ·) xs) :
    ∀ t ∈ evictOld now (dequeAppend 60 xs now), now - t ≤ 60 := by
  obtain ⟨ys, hy, hsub⟩ := dequeAppend_shape xs now
  rw [hy]
  exact evict_bound_aux now ys (h.sublist hsub)

/-- Evaluation of `record_and_check_limits` when the message ceiling is
exceeded: warn, block, and never touch the image history. -/
lemma record_eq_msgWarn (s : GuardState) (u : String) (now : Nat) (b : Bool)
    (h : MSG_MAX_PER_MIN <
      (evictOld now (dequeAppend 60 (s.msg_history u) now)).length) :
    record_and_check_limits s u now b =
      (some Warning.TooManyMessages,
       { s with
          msg_history := Function.update s.msg_history u
            (evictOld now (dequeAppend 60 (s.msg_history u) now)),
          blocked_until := Function.update s.blocked_until u
            (now + TEMP_BLOCK_MINUTES * 60) }) := by
  simp [record_and_check_limits, block_user, h]

/-- Evaluation of a non-image `record_and_check_limits` call under the
message ceiling: no warning, only the message history changes. -/
lemma record_eq_msgOk (s : GuardState) (u : String) (now : Nat)
    (h : ¬ MSG_MAX_PER_MIN <
      (evictOld now (dequeAppend 60 (s.msg_history u) now)).length) :
    record_and_check_limits s u now false =
      (none,
       { s with
          msg_history := Function.update s.msg_history u
            (evictOld now (dequeAppend 60 (s.msg_history u) now)) }) := by
  simp [record_and_check_limits, h]

/-- Evaluation of an image `record_and_check_limits` call under both
ceilings: no warning, both histories gain the new timestamp. -/
lemma record_eq_imgOk (s : GuardState) (u : String) (now : Nat)
    (hm : ¬ MSG_MAX_PER_MIN <
      (evictOld now (dequeAppend 60 (s.msg_history u) now)).length)
    (hi : ¬ IMG_MAX_PER_MIN <
      (evictOld now (dequeAppend 60 (s.img_history u) now)).length) :
    record_and_check_limits s u now true =
      (none,
       { s with
          msg_history := Function.update s.msg_history u
            (evictOld now (dequeAppend 60 (s.msg_history u) now)),
          img_history := Function.update s.img_history u
            (evictOld now (dequeAppend 60 (s.img_history u) now)) }) := by
  simp [record_and_check_limits, hm, hi]

/-- Evaluation of an image `record_and_check_limits` call that stays under
the message ceiling but exceeds the image ceiling: warn and block. -/
lemma record_eq_imgWarn (s : GuardState) (u : String) (now : Nat)
    (hm : ¬ MSG_MAX_PER_MIN <
      (evictOld now (dequeAppend 60 (s.msg_history u) now)).length)
    (hi : IMG_MAX_PER_MIN <
      (evictOld now (dequeAppend 60 (s.img_history u) now)).length) :
    record_and_check_limits s u now true =
      (some Warning.TooManyImages,
       { s with
          msg_history := Function.update s.msg_history u
            (evictOld now (dequeAppend 60 (s.msg_history u) now)),
          img_history := Function.update s.img_history u
            (evictOld now (dequeAppend 60 (s.img_history u) now)),
          blocked_until := Function.update s.blocked_until u
            (now + TEMP_BLOCK_MINUTES * 60) }) := by
  simp [record_and_check_limits, block_user, hm, hi]

/-- Splitting a run of record calls at an append. -/
lemma runRecords_append (u : String) (b : Bool) :
    ∀ (l₁ l₂ : List Nat) (s : GuardState),
      runRecords s u (l₁ ++ l₂) b =
        ((runRecords s u l₁ b).1 ++
           (runRecords (runRecords s u l₁ b).2 u l₂ b).1,
         (runRecords (runRecords s u l₁ b).2 u l₂ b).2) := by
  intro l₁
  induction l₁ with
  | nil => intro l₂ s; simp [runRecords]
  | cons t rest ih =>
    intro l₂ s
    simp only [List.cons_append, runRecords, List.append_eq, ih]

/-- A run of non-image record calls that all land inside one 60-second
window and never push the count past `MSG_MAX_PER_MIN` returns no warning
and simply appends the timestamps to the message history. -/
lemma run_msgs_no_warn (u : String) :
    ∀ (ts : List Nat) (s : GuardState) (pre : List Nat),
      s.msg_history u = pre →
      (∀ x ∈ pre ++ ts, ∀ y ∈ ts, y - x ≤ 60) →
      pre.length + ts.length ≤ MSG_MAX_PER_MIN →
      (runRecords s u ts false).1 = List.replicate ts.length none ∧
      (runRecords s u ts false).2.last_msg_time = s.last_msg_time ∧
      (runRecords s u ts false).2.img_history = s.img_history ∧
      (runRecords s u ts false).2.blocked_until = s.blocked_until ∧
      (runRecords s u ts false).2.msg_history =
        Function.update s.msg_history u (pre ++ ts) := by
  intro ts
  induction ts with
  | nil =>
    intro s pre hh hwin hlen
    refine ⟨rfl, rfl, rfl, rfl, ?_⟩
    rw [List.append_nil, ← hh, Function.update_eq_self]
    rfl
  | cons t rest ih =>
    intro s pre hh hwin hlen
    have hlen' : pre.length + (rest.length + 1) ≤ MSG_MAX_PER_MIN := by
      simpa [List.length_cons] using hlen
    have hpre60 : pre.length < 60 := by
      have : MSG_MAX_PER_MIN = 15 := rfl
      omega
    have hmh : evictOld t (dequeAppend 60 (s.msg_history u) t) = pre ++ [t] := by
      rw [hh, dequeAppend_small _ _ hpre60]
      apply evictOld_all_recent
      intro x hx
      rcases List.mem_append.mp hx with hx | hx
      · exact hwin x (List.mem_append_left _ hx) t (by simp)
      · simp only [List.mem_singleton] at hx
        omega
    have hnot : ¬ MSG_MAX_PER_MIN <
        (evictOld t (dequeAppend 60 (s.msg_history u) t)).length := by
      rw [hmh]
      simp only [List.length_append, List.length_singleton, not_lt]
      omega
    have hrec := record_eq_msgOk s u t hnot
    rw [hmh] at hrec
    have hih := ih
      { s with msg_history := Function.update s.msg_history u (pre ++ [t]) }
      (pre ++ [t]) (by simp)
      (by
        intro x hx y hy
        refine hwin x ?_ y (by simp [hy])
        rcases List.mem_append.mp hx with hx | hx
        · rcases List.mem_append.mp hx with hx | hx
          · exact List.mem_append_left _ hx
          · simp only [List.mem_singleton] at hx
            subst hx
            exact List.mem_append_right _ (by simp)
        · exact List.mem_append_right _ (by simp [hx]))
      (by simp only [List.length_append, List.length_singleton]; omega)
    simp only [runRecords, hrec]
    refine ⟨?_, hih.2.1, hih.2.2.1, hih.2.2.2.1, ?_⟩
    · rw [hih.1, List.length_cons, List.replicate_succ]
    · rw [hih.2.2.2.2]
      simp [Function.update_idem, List.append_assoc]

/-- A run of image record calls that all land inside one 60-second window
and stay under both ceilings returns no warning and appends the timestamps
to both histories. -/
lemma run_imgs_no_warn (u : String) :
    ∀ (ts : List Nat) (s : GuardState) (preM preI : List Nat),
      s.msg_history u = preM →
      s.img_history u = preI →
      (∀ x ∈ preM ++ ts, ∀ y ∈ ts, y - x ≤ 60) →
      (∀ x ∈ preI ++ ts, ∀ y ∈ ts, y - x ≤ 60) →
      preM.length + ts.length ≤ MSG_MAX_PER_MIN →
      preI.length + ts.length ≤ IMG_MAX_PER_MIN →
      (runRecords s u ts true).1 = List.replicate ts.length none ∧
      (runRecords s u ts true).2.last_msg_time = s.last_msg_time ∧
      (runRecords s u ts true).2.blocked_until = s.blocked_until ∧
      (runRecords s u ts true).2.msg_history =
        Function.update s.msg_history u (preM ++ ts) ∧
      (runRecords s u ts true).2.img_history =
        Function.update s.img_history u (preI ++ ts) := by
  intro ts
  induction ts with
  | nil =>
    intro s preM preI hhm hhi hwinM hwinI hlenM hlenI
    refine ⟨rfl, rfl, rfl, ?_, ?_⟩
    · rw [List.append_nil, ← hhm, Function.update_eq_self]
      rfl
    · rw [List.append_nil, ← hhi, Function.update_eq_self]
      rfl
  | cons t rest ih =>
    intro s preM preI hhm hhi hwinM hwinI hlenM hlenI
    have hlenM' : preM.length + (rest.length + 1) ≤ MSG_MAX_PER_MIN := by
      simpa [List.length_cons] using hlenM
    have hlenI' : preI.length + (rest.length + 1) ≤ IMG_MAX_PER_MIN := by
      simpa [List.length_cons] using hlenI
    have hM60 : preM.length < 60 := by
      have : MSG_MAX_PER_MIN = 15 := rfl
      omega
    have hI60 : preI.length < 60 := by
      have : IMG_MAX_PER_MIN = 3 := rfl
      omega
    have hmh : evictOld t (dequeAppend 60 (s.msg_history u) t) = preM ++ [t] := by
      rw [hhm, dequeAppend_small _ _ hM60]
      apply evictOld_all_recent
      intro x hx
      rcases List.mem_append.mp hx with hx | hx
      · exact hwinM x (List.mem_append_left _ hx) t (by simp)
      · simp only [List.mem_singleton] at hx
        omega
    have hih' : evictOld t (dequeAppend 60 (s.img_history u) t) = preI ++ [t] := by
      rw [hhi, dequeAppend_small _ _ hI60]
      apply evictOld_all_recent
      intro x hx
      rcases List.mem_append.mp hx with hx | hx
      · exact hwinI x (List.mem_append_left _ hx) t (by simp)
      · simp only [List.mem_singleton] at hx
        omega
    have hnotM : ¬ MSG_MAX_PER_MIN <
        (evictOld t (dequeAppend 60 (s.msg_history u) t)).length := by
      rw [hmh]
      simp only [List.length_append, List.length_singleton, not_lt]
      omega
    have hnotI : ¬ IMG_MAX_PER_MIN <
        (evictOld t (dequeAppend 60 (s.img_history u) t)).length := by
      rw [hih']
      simp only [List.length_append, List.length_singleton, not_lt]
      omega
    have hrec := record_eq_imgOk s u t hnotM hnotI
    rw [hmh, hih'] at hrec
    have hstep := ih
      { s with
          msg_history := Function.update s.msg_history u (preM ++ [t]),
          img_history := Function.update s.img_history u (preI ++ [t]) }
      (preM ++ [t]) (preI ++ [t]) (by simp) (by simp)
      (by
        intro x hx y hy
        refine hwinM x ?_ y (by simp [hy])
        rcases List.mem_append.mp hx with hx | hx
        · rcases List.mem_append.mp hx with hx | hx
          · exact List.mem_append_left _ hx
          · simp only [List.mem_singleton] at hx
            subst hx
            exact List.mem_append_right _ (by simp)
        · exact List.mem_append_right _ (by simp [hx]))
      (by
        intro x hx y hy
        refine hwinI x ?_ y (by simp [hy])
        rcases List.mem_append.mp hx with hx | hx
        · rcases List.mem_append.mp hx with hx | hx
          · exact List.mem_append_left _ hx
          · simp only [List.mem_singleton] at hx
            subst hx
            exact List.mem_append_right _ (by simp)
        · exact List.mem_append_right _ (by simp [hx]))
      (by simp only [List.length_append, List.length_singleton]; omega)
      (by simp only [List.length_append, List.length_singleton]; omega)
    simp only [runRecords, hrec]
    refine ⟨?_, hstep.2.1, hstep.2.2.1, ?_, ?_⟩
    · rw [hstep.1, List.length_cons, List.replicate_succ]
    · rw [hstep.2.2.2.1]
      simp [Function.update_idem, List.append_assoc]
    · rw [hstep.2.2.2.2]
      simp [Function.update_idem, List.append_assoc]

/-- Claim C4: `block_user` sets `blocked_until[user]` to exactly
`now + minutes * 60` (duration `d = minutes * 60` seconds), overwriting any
previous value — last-write-wins, even when a longer block was active. -/
theorem block_user_overwrites (s : GuardState) (u : String) (now minutes : Nat) :
    (block_user s u now minutes).blocked_until u = now + minutes * 60 := by
  simp [block_user]

/-- Claim C6: `is_blocked` returns true iff `now < blocked_until[user]`;
in particular it is false exactly at `now = blocked_until[user]` (and, by
the iff, at every later time) and true strictly before it.  It is a pure
read: it is modeled as a function that returns only a `Bool` and no state. -/
theorem is_blocked_iff (s : GuardState) (u : String) (now : Nat) :
    (is_blocked s u now = true ↔ now < s.blocked_until u) ∧
      is_blocked s u (s.blocked_until u) = false := by
  constructor
  · simp [is_blocked]
  · simp [is_blocked]

/-- Claim C1: starting from no in-window history, `MSG_MAX_PER_MIN + 1`
accepted non-image messages inside one 60-second window make the
`(MSG_MAX_PER_MIN+1)`-th `record_and_check_limits` call return
`TooManyMessages`, set `blocked_until[user] = now + 30*60` (so `is_blocked`
is true for the next 30 minutes), and leave every other user's blocked
state unchanged. -/
theorem msg_flood_blocks (s : GuardState) (u : String) (ts : List Nat)
    (tlast : Nat)
    (hh : s.msg_history u = [])
    (hlen : ts.length = MSG_MAX_PER_MIN)
    (hwin : ∀ x ∈ ts ++ [tlast], ∀ y ∈ ts ++ [tlast], y - x ≤ 60) :
    (runRecords s u (ts ++ [tlast]) false).1 =
      List.replicate MSG_MAX_PER_MIN (none : Option Warning) ++
        [some Warning.TooManyMessages] ∧
    (runRecords s u (ts ++ [tlast]) false).2.blocked_until u =
      tlast + TEMP_BLOCK_MINUTES * 60 ∧
    (∀ t, t < tlast + TEMP_BLOCK_MINUTES * 60 →
      is_blocked (runRecords s u (ts ++ [tlast]) false).2 u t = true) ∧
    (∀ v, v ≠ u →
      (runRecords s u (ts ++ [tlast]) false).2.blocked_until v =
        s.blocked_until v ∧
      ∀ t, is_blocked (runRecords s u (ts ++ [tlast]) false).2 v t =
        is_blocked s v t) := by
  have hwts : ∀ x ∈ [] ++ ts, ∀ y ∈ ts, y - x ≤ 60 := by
    intro x hx y hy
    exact hwin x (List.mem_append_left _ (by simpa using hx))
      y (List.mem_append_left _ hy)
  have hacc := run_msgs_no_warn u ts s [] hh hwts
    (by simp only [List.length_nil, Nat.zero_add, hlen, le_refl])
  obtain ⟨houts, hlast, himg, hblocked, hmsg⟩ := hacc
  have hs15msg : (runRecords s u ts false).2.msg_history u = ts := by
    rw [hmsg]
    simp
  have hmh : evictOld tlast
      (dequeAppend 60 ((runRecords s u ts false).2.msg_history u) tlast) =
      ts ++ [tlast] := by
    rw [hs15msg, dequeAppend_small _ _
      (by rw [hlen]; norm_num [MSG_MAX_PER_MIN])]
    apply evictOld_all_recent
    intro x hx
    exact hwin x hx tlast (List.mem_append_right _ (by simp))
  have hgt : MSG_MAX_PER_MIN < (evictOld tlast
      (dequeAppend 60 ((runRecords s u ts false).2.msg_history u) tlast)).length := by
    rw [hmh]
    simp [List.length_append, hlen]
  have hrec := record_eq_msgWarn (runRecords s u ts false).2 u tlast false hgt
  have hsplit := runRecords_append u false ts [tlast] s
  have hone : runRecords (runRecords s u ts false).2 u [tlast] false =
      ([(record_and_check_limits (runRecords s u ts false).2 u tlast false).1],
       (record_and_check_limits (runRecords s u ts false).2 u tlast false).2) := by
    simp [runRecords]
  refine ⟨?_, ?_, ?_, ?_⟩
  · rw [hsplit]
    simp only [hone, houts, hrec, hlen]
  · rw [hsplit]
    simp only [hone, hrec, Function.update_same]
  · intro t ht
    rw [hsplit]
    simp only [hone, hrec, is_blocked, Function.update_same]
    exact decide_eq_true ht
  · intro v hv
    constructor
    · rw [hsplit]
      simp only [hone, hrec]
      have : Function.update ((runRecords s u ts false).2.blocked_until) u
          (tlast + TEMP_BLOCK_MINUTES * 60) v =
          (runRecords s u ts false).2.blocked_until v :=
        Function.update_noteq hv _ _
      rw [this, hblocked]
    · intro t
      rw [hsplit]
      simp only [hone, hrec, is_blocked]
      have : Function.update ((runRecords s u ts false).2.blocked_until) u
          (tlast + TEMP_BLOCK_MINUTES * 60) v =
          (runRecords s u ts false).2.blocked_until v :=
        Function.update_noteq hv _ _
      rw [this, hblocked]

/-- Witness for C1: sixteen messages at time 0 from a fresh state. -/
theorem msg_flood_blocks_witness :
    (runRecords initState "u" (List.replicate MSG_MAX_PER_MIN 0 ++ [0]) false).1 =
      List.replicate MSG_MAX_PER_MIN (none : Option Warning) ++
        [some Warning.TooManyMessages] ∧
    (runRecords initState "u"
        (List.replicate MSG_MAX_PER_MIN 0 ++ [0]) false).2.blocked_until "u" =
      0 + TEMP_BLOCK_MINUTES * 60 :=
  have h := msg_flood_blocks initState "u" (List.replicate MSG_MAX_PER_MIN 0) 0
    rfl (by decide) (by decide)
  ⟨h.1, h.2.1⟩

/-- Claim C7: with the image history empty and enough headroom under the
total-message ceiling, `IMG_MAX_PER_MIN + 1` image calls inside one
60-second window make the `(IMG_MAX_PER_MIN+1)`-th call return
`TooManyImages` and block the user for 30 minutes. -/
theorem img_flood_blocks (s : GuardState) (u : String) (preM ts : List Nat)
    (tlast : Nat)
    (hm : s.msg_history u = preM)
    (hi : s.img_history u = [])
    (hlen : ts.length = IMG_MAX_PER_MIN)
    (hmsg : preM.length + (IMG_MAX_PER_MIN + 1) ≤ MSG_MAX_PER_MIN)
    (hwin : ∀ x ∈ preM ++ (ts ++ [tlast]), ∀ y ∈ ts ++ [tlast], y - x ≤ 60) :
    (runRecords s u (ts ++ [tlast]) true).1 =
      List.replicate IMG_MAX_PER_MIN (none : Option Warning) ++
        [some Warning.TooManyImages] ∧
    (runRecords s u (ts ++ [tlast]) true).2.blocked_until u =
      tlast + TEMP_BLOCK_MINUTES * 60 ∧
    (∀ t, t < tlast + TEMP_BLOCK_MINUTES * 60 →
      is_blocked (runRecords s u (ts ++ [tlast]) true).2 u t = true) := by
  have hsubM : ∀ x ∈ preM ++ ts, x ∈ preM ++ (ts ++ [tlast]) := by
    intro x hx
    rcases List.mem_append.mp hx with hx | hx
    · exact List.mem_append_left _ hx
    · exact List.mem_append_right _ (List.mem_append_left _ hx)
  have hwM : ∀ x ∈ preM ++ ts, ∀ y ∈ ts, y - x ≤ 60 := by
    intro x hx y hy
    exact hwin x (hsubM x hx) y (List.mem_append_left _ hy)
  have hwI : ∀ x ∈ [] ++ ts, ∀ y ∈ ts, y - x ≤ 60 := by
    intro x hx y hy
    refine hwin x ?_ y (List.mem_append_left _ hy)
    exact List.mem_append_right _ (List.mem_append_left _ (by simpa using hx))
  have hacc := run_imgs_no_warn u ts s preM [] hm hi hwM hwI
    (by rw [hlen]; omega)
    (by simp only [List.length_nil, Nat.zero_add, hlen, le_refl])
  obtain ⟨houts, hlast, hblocked, hmsgf, himgf⟩ := hacc
  have hsMu : (runRecords s u ts true).2.msg_history u = preM ++ ts := by
    rw [hmsgf]
    simp
  have hsIu : (runRecords s u ts true).2.img_history u = ts := by
    rw [himgf]
    simp
  have hmhM : evictOld tlast
      (dequeAppend 60 ((runRecords s u ts true).2.msg_history u) tlast) =
      (preM ++ ts) ++ [tlast] := by
    rw [hsMu, dequeAppend_small _ _ (by
      simp only [List.length_append]
      have h15 : MSG_MAX_PER_MIN = 15 := rfl
      have h3 : IMG_MAX_PER_MIN = 3 := rfl
      omega)]
    apply evictOld_all_recent
    intro x hx
    rcases List.mem_append.mp hx with hx | hx
    · exact hwin x (hsubM x hx) tlast
        (List.mem_append_right _ (by simp))
    · simp only [List.mem_singleton] at hx
      omega
  have hmhI : evictOld tlast
      (dequeAppend 60 ((runRecords s u ts true).2.img_history u) tlast) =
      ts ++ [tlast] := by
    rw [hsIu, dequeAppend_small _ _ (by rw [hlen]; norm_num [IMG_MAX_PER_MIN])]
    apply evictOld_all_recent
    intro x hx
    rcases List.mem_append.mp hx with hx | hx
    · exact hwin x (List.mem_append_right _ (List.mem_append_left _ hx)) tlast
        (List.mem_append_right _ (by simp))
    · simp only [List.mem_singleton] at hx
      omega
  have hnotM : ¬ MSG_MAX_PER_MIN < (evictOld tlast
      (dequeAppend 60 ((runRecords s u ts true).2.msg_history u) tlast)).length := by
    rw [hmhM]
    simp only [List.length_append, List.length_singleton, not_lt]
    omega
  have hgtI : IMG_MAX_PER_MIN < (evictOld tlast
      (dequeAppend 60 ((runRecords s u ts true).2.img_history u) tlast)).length := by
    rw [hmhI]
    simp [List.length_append, hlen]
  have hrec := record_eq_imgWarn (runRecords s u ts true).2 u tlast hnotM hgtI
  have hsplit := runRecords_append u true ts [tlast] s
  have hone : runRecords (runRecords s u ts true).2 u [tlast] true =
      ([(record_and_check_limits (runRecords s u ts true).2 u tlast true).1],
       (record_and_check_limits (runRecords s u ts true).2 u tlast true).2) := by
    simp [runRecords]
  refine ⟨?_, ?_, ?_⟩
  · rw [hsplit]
    simp only [hone, houts, hrec, hlen]
  · rw [hsplit]
    simp only [hone, hrec, Function.update_same]
  · intro t ht
    rw [hsplit]
    simp only [hone, hrec, is_blocked, Function.update_same]
    exact decide_eq_true ht

/-- Witness for C7: four images at time 0 from a fresh state. -/
theorem img_flood_blocks_witness :
    (runRecords initState "u" (List.replicate IMG_MAX_PER_MIN 0 ++ [0]) true).1 =
      List.replicate IMG_MAX_PER_MIN (none : Option Warning) ++
        [some Warning.TooManyImages] ∧
    (runRecords initState "u"
        (List.replicate IMG_MAX_PER_MIN 0 ++ [0]) true).2.blocked_until "u" =
      0 + TEMP_BLOCK_MINUTES * 60 :=
  have h := img_flood_blocks initState "u" [] (List.replicate IMG_MAX_PER_MIN 0) 0
    rfl rfl (by decide) (by decide) (by decide)
  ⟨h.1, h.2.1⟩

/-- Claim C2: the message-count check comes strictly first: whenever the
message ceiling is exceeded, `record_and_check_limits` returns
`TooManyMessages` and blocks the user without ever evaluating the image
ceiling — the image history is left completely untouched, whatever
`is_image` is. -/
theorem msg_check_short_circuits (s : GuardState) (u : String) (now : Nat)
    (b : Bool)
    (h : MSG_MAX_PER_MIN <
      (evictOld now (dequeAppend 60 (s.msg_history u) now)).length) :
    (record_and_check_limits s u now b).1 = some Warning.TooManyMessages ∧
    (record_and_check_limits s u now b).2.img_history = s.img_history ∧
    (record_and_check_limits s u now b).2.blocked_until u =
      now + TEMP_BLOCK_MINUTES * 60 := by
  rw [record_eq_msgWarn s u now b h]
  exact ⟨rfl, rfl, Function.update_same _ _ _⟩

/-- Witness for C2: a user with 15 in-window entries sends an image. -/
theorem msg_check_short_circuits_witness :
    (record_and_check_limits
      { initState with
          msg_history :=
            Function.update initState.msg_history "u" (List.replicate 15 0) }
      "u" 0 true).1 = some Warning.TooManyMessages :=
  (msg_check_short_circuits _ "u" 0 true (by decide)).1

/-- Claim C10: when an image call is answered with `TooManyMessages`, the
image history is completely unchanged (`now` is never appended to it),
while `now` does remain in the message history — the recording is not
rolled back on the warning outcome. -/
theorem msg_warn_keeps_msg_drops_img (s : GuardState) (u : String) (now : Nat)
    (h : (record_and_check_limits s u now true).1 =
      some Warning.TooManyMessages) :
    (record_and_check_limits s u now true).2.img_history = s.img_history ∧
    now ∈ (record_and_check_limits s u now true).2.msg_history u := by
  by_cases hm : MSG_MAX_PER_MIN <
      (evictOld now (dequeAppend 60 (s.msg_history u) now)).length
  · rw [record_eq_msgWarn s u now true hm]
    refine ⟨rfl, ?_⟩
    simp only [Function.update_same]
    exact now_mem_evict_append now _
  · exfalso
    by_cases hi : IMG_MAX_PER_MIN <
        (evictOld now (dequeAppend 60 (s.img_history u) now)).length
    · rw [record_eq_imgWarn s u now hm hi] at h
      simp at h
    · rw [record_eq_imgOk s u now hm hi] at h
      simp at h

/-- Witness for C10: a message-flooded user sends an image at time 0. -/
theorem msg_warn_keeps_msg_drops_img_witness :
    0 ∈ (record_and_check_limits
      { initState with
          msg_history :=
            Function.update initState.msg_history "v" (List.replicate 15 0) }
      "v" 0 true).2.msg_history "v" :=
  (msg_warn_keeps_msg_drops_img _ "v" 0 (by decide)).2

/-- Evaluation of a throttled `too_frequent` call. -/
lemma too_frequent_pos (s : GuardState) (u : String) (now : Nat)
    (h : now - s.last_msg_time u < RATE_MIN_INTERVAL_SEC) :
    too_frequent s u now = (true, s) := by
  simp [too_frequent, h]

/-- Evaluation of an accepted `too_frequent` call. -/
lemma too_frequent_neg (s : GuardState) (u : String) (now : Nat)
    (h : ¬ now - s.last_msg_time u < RATE_MIN_INTERVAL_SEC) :
    too_frequent s u now =
      (false,
       { s with last_msg_time := Function.update s.last_msg_time u now }) := by
  simp [too_frequent, h]

/-- Counterexample to C3 as stated: for a user with no prior activity
(`last_message_time` reads the `defaultdict` default `0`), the first call
to `too_frequent` at any clock value below `MIN_INTERVAL` returns `true`,
not `false`: here the first call at `now = 3` is rejected. -/
theorem too_frequent_first_call_counterexample :
    initState.last_msg_time "u" = 0 ∧
      (too_frequent initState "u" 3).1 = true := by
  exact ⟨rfl, rfl⟩

/-- Claim C3 (amended): `too_frequent(user, now)` returns true and leaves
the entire state unchanged when `now - last_message_time[user] <
MIN_INTERVAL`, and otherwise stores `now` and returns false; a first call
for a user with no prior activity returns false *provided at least
`MIN_INTERVAL` seconds have passed since clock zero* (the stored default is
`0`); and when a call returns false at `now₁`, a second call within
`MIN_INTERVAL` seconds returns true and leaves the timestamp stored by the
first call unchanged. -/
theorem too_frequent_spec :
    (∀ s u now, now - s.last_msg_time u < RATE_MIN_INTERVAL_SEC →
      too_frequent s u now = (true, s)) ∧
    (∀ s u now, ¬ now - s.last_msg_time u < RATE_MIN_INTERVAL_SEC →
      (too_frequent s u now).1 = false ∧
      (too_frequent s u now).2.last_msg_time =
        Function.update s.last_msg_time u now ∧
      (too_frequent s u now).2.msg_history = s.msg_history ∧
      (too_frequent s u now).2.img_history = s.img_history ∧
      (too_frequent s u now).2.blocked_until = s.blocked_until) ∧
    (∀ s u now, s.last_msg_time u = 0 → RATE_MIN_INTERVAL_SEC ≤ now →
      (too_frequent s u now).1 = false) ∧
    (∀ s u now₁ now₂, (too_frequent s u now₁).1 = false →
      now₂ - now₁ < RATE_MIN_INTERVAL_SEC →
      (too_frequent (too_frequent s u now₁).2 u now₂).1 = true ∧
      (too_frequent (too_frequent s u now₁).2 u now₂).2.last_msg_time u =
        now₁) := by
  refine ⟨?_, ?_, ?_, ?_⟩
  · intro s u now h
    simp [too_frequent, h]
  · intro s u now h
    simp [too_frequent, h]
  · intro s u now h0 h5
    have h : ¬ now - s.last_msg_time u < RATE_MIN_INTERVAL_SEC := by
      rw [h0]
      omega
    simp [too_frequent, h]
  · intro s u now₁ now₂ h1 h2
    have hc : ¬ now₁ - s.last_msg_time u < RATE_MIN_INTERVAL_SEC := by
      intro hc
      rw [show too_frequent s u now₁ = (true, s) by simp [too_frequent, hc]]
        at h1
      cases h1
    have hstate : (too_frequent s u now₁).2.last_msg_time u = now₁ := by
      rw [too_frequent_neg s u now₁ hc]
      simp
    have hc2 : now₂ - (too_frequent s u now₁).2.last_msg_time u <
        RATE_MIN_INTERVAL_SEC := by
      rw [hstate]
      exact h2
    rw [too_frequent_pos _ u now₂ hc2]
    exact ⟨rfl, hstate⟩

/-- Witness for C3 (amended), exercising all conditional parts at concrete
inputs: throttled call at time 0, accepted first call at time 5, and an
accepted call at 10 followed by a rejected one at 12. -/
theorem too_frequent_spec_witness :
    too_frequent initState "u" 0 = (true, initState) ∧
    (too_frequent initState "u" 5).1 = false ∧
    (too_frequent (too_frequent initState "u" 10).2 "u" 12).1 = true ∧
    (too_frequent (too_frequent initState "u" 10).2 "u" 12).2.last_msg_time
      "u" = 10 :=
  ⟨too_frequent_spec.1 initState "u" 0 (by decide),
   too_frequent_spec.2.2.1 initState "u" 5 rfl (by decide),
   (too_frequent_spec.2.2.2 initState "u" 10 12 (by decide) (by decide)).1,
   (too_frequent_spec.2.2.2 initState "u" 10 12 (by decide) (by decide)).2⟩

/-- Claim C8: (window invariant) after any `record_and_check_limits` call
on sorted histories, the user's message history — and the image history
whenever it was touched — contains only entries within 60 seconds of the
just-inserted timestamp; and (eviction scenario) one message, a 61-second
wait, then `MSG_MAX_PER_MIN` messages inside one 60-second window produce
no warning and no block, the first message having been evicted. -/
theorem window_invariant_and_eviction :
    (∀ (s : GuardState) (u : String) (now : Nat) (b : Bool),
      List.Pairwise (· ≤ ·) (s.msg_history u) →
      List.Pairwise (· ≤ ·) (s.img_history u) →
      (∀ t ∈ (record_and_check_limits s u now b).2.msg_history u,
        now - t ≤ 60) ∧
      ((record_and_check_limits s u now b).2.img_history u =
          s.img_history u ∨
        ∀ t ∈ (record_and_check_limits s u now b).2.img_history u,
          now - t ≤ 60)) ∧
    (∀ (s : GuardState) (u : String) (t0 t1 : Nat) (rest : List Nat),
      s.msg_history u = [] →
      rest.length + 1 = MSG_MAX_PER_MIN →
      t0 + 61 ≤ t1 →
      (∀ x ∈ t1 :: rest, ∀ y ∈ t1 :: rest, y - x ≤ 60) →
      (runRecords s u (t0 :: t1 :: rest) false).1 =
        List.replicate (MSG_MAX_PER_MIN + 1) none ∧
      (runRecords s u (t0 :: t1 :: rest) false).2.blocked_until =
        s.blocked_until) := by
  constructor
  · intro s u now b hpm hpi
    by_cases hm : MSG_MAX_PER_MIN <
        (evictOld now (dequeAppend 60 (s.msg_history u) now)).length
    · rw [record_eq_msgWarn s u now b hm]
      refine ⟨?_, Or.inl rfl⟩
      simp only [Function.update_same]
      exact evict_bound now _ hpm
    · cases b with
      | false =>
        rw [record_eq_msgOk s u now hm]
        refine ⟨?_, Or.inl rfl⟩
        simp only [Function.update_same]
        exact evict_bound now _ hpm
      | true =>
        by_cases hi : IMG_MAX_PER_MIN <
            (evictOld now (dequeAppend 60 (s.img_history u) now)).length
        · rw [record_eq_imgWarn s u now hm hi]
          refine ⟨?_, Or.inr ?_⟩ <;> simp only [Function.update_same] <;>
            exact evict_bound now _ (by assumption)
        · rw [record_eq_imgOk s u now hm hi]
          refine ⟨?_, Or.inr ?_⟩ <;> simp only [Function.update_same] <;>
            exact evict_bound now _ (by assumption)
  · intro s u t0 t1 rest hh hlen hgap hw
    have e0 : evictOld t0 (dequeAppend 60 (s.msg_history u) t0) = [t0] := by
      rw [hh, dequeAppend_small _ _ (by simp)]
      apply evictOld_all_recent
      intro x hx
      simp only [List.nil_append, List.mem_singleton] at hx
      omega
    have h1 := record_eq_msgOk s u t0 (by rw [e0]; simp [MSG_MAX_PER_MIN])
    rw [e0] at h1
    have hA1msg : (record_and_check_limits s u t0 false).2.msg_history u =
        [t0] := by
      rw [h1]
      simp
    have hA1o : (record_and_check_limits s u t0 false).1 = none := by
      rw [h1]
    have hA1last : (record_and_check_limits s u t0 false).2.last_msg_time =
        s.last_msg_time := by
      rw [h1]
    have hA1img : (record_and_check_limits s u t0 false).2.img_history =
        s.img_history := by
      rw [h1]
    have hA1blk : (record_and_check_limits s u t0 false).2.blocked_until =
        s.blocked_until := by
      rw [h1]
    have e1 : evictOld t1 (dequeAppend 60 [t0] t1) = [t1] := by
      rw [dequeAppend_small _ _ (by simp)]
      show List.dropWhile _ (t0 :: [t1]) = [t1]
      rw [List.dropWhile_cons_of_pos (by
        simp only [gt_iff_lt, decide_eq_true_eq]
        omega)]
      rw [List.dropWhile_cons_of_neg (by simp)]
    have h2 := record_eq_msgOk (record_and_check_limits s u t0 false).2 u t1
      (by rw [hA1msg, e1]; simp [MSG_MAX_PER_MIN])
    rw [hA1msg, e1] at h2
    have hA2msg : (record_and_check_limits
        (record_and_check_limits s u t0 false).2 u t1 false).2.msg_history u =
        [t1] := by
      rw [h2]
      simp
    have hA2o : (record_and_check_limits
        (record_and_check_limits s u t0 false).2 u t1 false).1 = none := by
      rw [h2]
    have hA2blk : (record_and_check_limits
        (record_and_check_limits s u t0 false).2 u t1 false).2.blocked_until =
        s.blocked_until := by
      rw [h2, ← hA1blk]
    have hacc := run_msgs_no_warn u rest
      (record_and_check_limits
        (record_and_check_limits s u t0 false).2 u t1 false).2 [t1] hA2msg
      (by
        intro x hx y hy
        exact hw x (by simpa using hx) y (List.mem_cons_of_mem _ hy))
      (by simp only [List.length_singleton]; omega)
    constructor
    · show ((record_and_check_limits s u t0 false).1 ::
        ((record_and_check_limits
          (record_and_check_limits s u t0 false).2 u t1 false).1 ::
          (runRecords (record_and_check_limits
            (record_and_check_limits s u t0 false).2 u t1 false).2 u rest
              false).1)) = _
      rw [hA1o, hA2o, hacc.1,
        show MSG_MAX_PER_MIN + 1 = rest.length + 1 + 1 by omega]
      simp [List.replicate_succ]
    · show (runRecords (record_and_check_limits
        (record_and_check_limits s u t0 false).2 u t1 false).2 u rest
          false).2.blocked_until = _
      rw [hacc.2.2.2.1, hA2blk]

/-- Witness for C8: both parts at concrete inputs — an image call at time 0
on a fresh user, and the 1 + 61s-gap + 15 message scenario. -/
theorem window_invariant_and_eviction_witness :
    ((∀ t ∈ (record_and_check_limits initState "u" 0 true).2.msg_history "u",
        0 - t ≤ 60) ∧
      ((record_and_check_limits initState "u" 0 true).2.img_history "u" =
          initState.img_history "u" ∨
        ∀ t ∈ (record_and_check_limits initState "u" 0 true).2.img_history "u",
          0 - t ≤ 60)) ∧
    (runRecords initState "u" (0 :: 61 :: List.replicate 14 61) false).1 =
      List.replicate (MSG_MAX_PER_MIN + 1) none :=
  ⟨window_invariant_and_eviction.1 initState "u" 0 true (by decide)
      (by decide),
   (window_invariant_and_eviction.2 initState "u" 0 61 (List.replicate 14 61)
      rfl (by decide) (by decide) (by decide)).1⟩

/-- `too_frequent` never touches `blocked_until`. -/
lemma too_frequent_blocked (s : GuardState) (u : String) (now : Nat) :
    (too_frequent s u now).2.blocked_until = s.blocked_until := by
  by_cases h : now - s.last_msg_time u < RATE_MIN_INTERVAL_SEC
  · rw [too_frequent_pos s u now h]
  · rw [too_frequent_neg s u now h]

/-- A record call either leaves a user's `blocked_until` alone or sets it
to `now + TEMP_BLOCK_MINUTES * 60`. -/
lemma record_blocked_cases (s : GuardState) (u : String) (now : Nat)
    (b : Bool) (v : String) :
    (record_and_check_limits s u now b).2.blocked_until v =
        s.blocked_until v ∨
      (record_and_check_limits s u now b).2.blocked_until v =
        now + TEMP_BLOCK_MINUTES * 60 := by
  by_cases hm : MSG_MAX_PER_MIN <
      (evictOld now (dequeAppend 60 (s.msg_history u) now)).length
  · rw [record_eq_msgWarn s u now b hm]
    by_cases hv : v = u
    · subst hv
      right
      simp
    · left
      exact Function.update_noteq hv _ _
  · cases b with
    | false =>
      rw [record_eq_msgOk s u now hm]
      exact Or.inl rfl
    | true =>
      by_cases hi : IMG_MAX_PER_MIN <
          (evictOld now (dequeAppend 60 (s.img_history u) now)).length
      · rw [record_eq_imgWarn s u now hm hi]
        by_cases hv : v = u
        · subst hv
          right
          simp
        · left
          exact Function.update_noteq hv _ _
      · rw [record_eq_imgOk s u now hm hi]
        exact Or.inl rfl

/-- One guard operation neither decreases `blocked_until` nor pushes it
past `opTime + 30` minutes, given the same bound on the incoming state. -/
lemma applyOp_blocked_step (s : GuardState) (op : GuardOp) (T : Nat)
    (hbound : ∀ v, s.blocked_until v ≤ T + TEMP_BLOCK_MINUTES * 60)
    (ht : T ≤ opTime op) (hstd : opStdBlock op = true) :
    (∀ v, s.blocked_until v ≤ (applyOp s op).blocked_until v) ∧
    (∀ v, (applyOp s op).blocked_until v ≤
      opTime op + TEMP_BLOCK_MINUTES * 60) := by
  cases op with
  | isBlockedOp u now =>
    exact ⟨fun v => le_refl _,
      fun v => le_trans (hbound v) (by simp only [opTime] at ht ⊢; omega)⟩
  | tooFrequentOp u now =>
    simp only [applyOp, too_frequent_blocked]
    exact ⟨fun v => le_refl _,
      fun v => le_trans (hbound v) (by simp only [opTime] at ht ⊢; omega)⟩
  | recordOp u now b =>
    simp only [opTime] at ht ⊢
    constructor
    · intro v
      rcases record_blocked_cases s u now b v with h | h
      · rw [applyOp, h]
      · rw [applyOp, h]
        exact le_trans (hbound v) (by omega)
    · intro v
      rcases record_blocked_cases s u now b v with h | h
      · rw [applyOp, h]
        exact le_trans (hbound v) (by omega)
      · rw [applyOp, h]
  | blockOp u now m =>
    have hm : m = TEMP_BLOCK_MINUTES := by
      simpa [opStdBlock] using hstd
    subst hm
    simp only [opTime] at ht ⊢
    constructor
    · intro v
      by_cases hv : v = u
      · subst hv
        simp only [applyOp, block_user, Function.update_same]
        exact le_trans (hbound v) (by omega)
      · simp only [applyOp, block_user, Function.update_noteq hv]
        exact le_refl _
    · intro v
      by_cases hv : v = u
      · subst hv
        simp [applyOp, block_user, Function.update_same]
      · simp only [applyOp, block_user, Function.update_noteq hv]
        exact le_trans (hbound v) (by omega)

/-- The head of a `scanl` is the start state. -/
lemma scanl_head_eq (f : GuardState → GuardOp → GuardState) (b : GuardState)
    (l : List GuardOp) : (List.scanl f b l).head? = some b := by
  cases l <;> simp [List.scanl]

/-- The trajectory of a time-monotone, standard-duration sequence of guard
operations has pointwise non-decreasing `blocked_until`. -/
lemma scanl_blocked_chain :
    ∀ (ops : List GuardOp) (s : GuardState) (T : Nat),
      (∀ v, s.blocked_until v ≤ T + TEMP_BLOCK_MINUTES * 60) →
      (∀ op ∈ ops.head?, T ≤ opTime op) →
      List.Chain' (fun a b => opTime a ≤ opTime b) ops →
      (∀ op ∈ ops, opStdBlock op = true) →
      List.Chain' (fun s1 s2 : GuardState => ∀ v,
        s1.blocked_until v ≤ s2.blocked_until v)
        (List.scanl applyOp s ops) := by
  intro ops
  induction ops with
  | nil =>
    intro s T _ _ _ _
    simp [List.scanl]
  | cons op rest ih =>
    intro s T hbound hT hmono hstd
    have hTop : T ≤ opTime op := hT op (by simp)
    have hsd : opStdBlock op = true := hstd op (by simp)
    have hstep := applyOp_blocked_step s op T hbound hTop hsd
    have hmono' := List.chain'_cons'.mp hmono
    rw [List.scanl_cons]
    simp only [List.singleton_append]
    refine List.chain'_cons'.mpr ⟨?_, ?_⟩
    · intro y hy
      rw [scanl_head_eq] at hy
      simp only [Option.mem_def, Option.some.injEq] at hy
      subst hy
      exact hstep.1
    · exact ih (applyOp s op) (opTime op) hstep.2
        (fun op2 h2 => hmono'.1 op2 h2) hmono'.2
        (fun op2 h2 => hstd op2 (List.mem_cons_of_mem _ h2))

/-- Counterexample to C5 as stated: `block` overwrites rather than takes a
maximum, so an explicit block with a shorter duration makes
`blocked_until` decrease: after a standard 30-minute block at time 0, a
1-minute block at time 0 lowers `blocked_until["u"]` from 1800 to 60. -/
theorem blocked_until_decreases_counterexample :
    (applyOp (applyOp initState (GuardOp.blockOp "u" 0 TEMP_BLOCK_MINUTES))
        (GuardOp.blockOp "u" 0 1)).blocked_until "u" <
      (applyOp initState
        (GuardOp.blockOp "u" 0 TEMP_BLOCK_MINUTES)).blocked_until "u" := by
  simp [applyOp, block_user, TEMP_BLOCK_MINUTES]

/-- Claim C5 (amended): `blocked_until` changes only via a block action —
`is_blocked` is stateless, `too_frequent` never touches it, and a record
call that returns no warning leaves it unchanged — and it never decreases
across any sequence of guard operations whose clock values are
non-decreasing and whose explicit blocks all use the standard
`TEMP_BLOCK_MINUTES` duration (an explicit block with a shorter remaining
duration can decrease it, as the counterexample shows). -/
theorem blocked_until_monotone :
    (∀ s u now, (too_frequent s u now).2.blocked_until = s.blocked_until) ∧
    (∀ s u now b, (record_and_check_limits s u now b).1 = none →
      (record_and_check_limits s u now b).2.blocked_until =
        s.blocked_until) ∧
    (∀ ops : List GuardOp,
      List.Chain' (fun a b => opTime a ≤ opTime b) ops →
      (∀ op ∈ ops, opStdBlock op = true) →
      List.Chain' (fun s1 s2 : GuardState => ∀ v,
        s1.blocked_until v ≤ s2.blocked_until v)
        (List.scanl applyOp initState ops)) := by
  refine ⟨too_frequent_blocked, ?_, ?_⟩
  · intro s u now b h
    by_cases hm : MSG_MAX_PER_MIN <
        (evictOld now (dequeAppend 60 (s.msg_history u) now)).length
    · rw [record_eq_msgWarn s u now b hm] at h
      cases h
    · cases b with
      | false => rw [record_eq_msgOk s u now hm]
      | true =>
        by_cases hi : IMG_MAX_PER_MIN <
            (evictOld now (dequeAppend 60 (s.img_history u) now)).length
        · rw [record_eq_imgWarn s u now hm hi] at h
          cases h
        · rw [record_eq_imgOk s u now hm hi]
  · intro ops hmono hstd
    exact scanl_blocked_chain ops initState 0
      (fun v => by simp [initState]) (fun op _ => Nat.zero_le _) hmono hstd

/-- Witness for C5 (amended): a record call followed by a later standard
block, starting from the initial state. -/
theorem blocked_until_monotone_witness :
    List.Chain' (fun s1 s2 : GuardState => ∀ v,
        s1.blocked_until v ≤ s2.blocked_until v)
      (List.scanl applyOp initState
        [GuardOp.recordOp "u" 0 false,
         GuardOp.blockOp "u" 5 TEMP_BLOCK_MINUTES]) :=
  blocked_until_monotone.2.2 _ (by simp [List.chain'_cons, opTime])
    (by decide)

/-- A record call for one user leaves every other user's state untouched. -/
lemma record_frame (s : GuardState) (u : String) (now : Nat) (b : Bool)
    (v : String) (hv : v ≠ u) :
    (record_and_check_limits s u now b).2.last_msg_time v =
        s.last_msg_time v ∧
    (record_and_check_limits s u now b).2.msg_history v = s.msg_history v ∧
    (record_and_check_limits s u now b).2.img_history v = s.img_history v ∧
    (record_and_check_limits s u now b).2.blocked_until v =
      s.blocked_until v := by
  by_cases hm : MSG_MAX_PER_MIN <
      (evictOld now (dequeAppend 60 (s.msg_history u) now)).length
  · rw [record_eq_msgWarn s u now b hm]
    exact ⟨rfl, Function.update_noteq hv _ _, rfl,
      Function.update_noteq hv _ _⟩
  · cases b with
    | false =>
      rw [record_eq_msgOk s u now hm]
      exact ⟨rfl, Function.update_noteq hv _ _, rfl, rfl⟩
    | true =>
      by_cases hi : IMG_MAX_PER_MIN <
          (evictOld now (dequeAppend 60 (s.img_history u) now)).length
      · rw [record_eq_imgWarn s u now hm hi]
        exact ⟨rfl, Function.update_noteq hv _ _,
          Function.update_noteq hv _ _, Function.update_noteq hv _ _⟩
      · rw [record_eq_imgOk s u now hm hi]
        exact ⟨rfl, Function.update_noteq hv _ _,
          Function.update_noteq hv _ _, rfl⟩

/-- A `too_frequent` call for one user leaves every other user's state
untouched. -/
lemma too_frequent_frame (s : GuardState) (u : String) (now : Nat)
    (v : String) (hv : v ≠ u) :
    (too_frequent s u now).2.last_msg_time v = s.last_msg_time v ∧
    (too_frequent s u now).2.msg_history v = s.msg_history v ∧
    (too_frequent s u now).2.img_history v = s.img_history v ∧
    (too_frequent s u now).2.blocked_until v = s.blocked_until v := by
  by_cases h : now - s.last_msg_time u < RATE_MIN_INTERVAL_SEC
  · rw [too_frequent_pos s u now h]
    exact ⟨rfl, rfl, rfl, rfl⟩
  · rw [too_frequent_neg s u now h]
    exact ⟨Function.update_noteq hv _ _, rfl, rfl, rfl⟩

/-- The state a dispatch leaves behind is one of: unchanged, the
`too_frequent` state, or the `record_and_check_limits` state. -/
lemma dispatch_state (s : GuardState) (userId : Option String) (now : Nat)
    (b : Bool) :
    (dispatch s userId now b).2 = s ∨
    (dispatch s userId now b).2 =
      (too_frequent s (extract_user userId) now).2 ∨
    (dispatch s userId now b).2 =
      (record_and_check_limits (too_frequent s (extract_user userId) now).2
        (extract_user userId) now b).2 := by
  by_cases hb : is_blocked s (extract_user userId) now = true
  · left
    simp [dispatch, hb]
  · cases htf : (too_frequent s (extract_user userId) now).1 with
    | true =>
      right
      left
      simp [dispatch, hb, htf]
    | false =>
      right
      right
      cases hrc : (record_and_check_limits
          (too_frequent s (extract_user userId) now).2
          (extract_user userId) now b).1 with
      | none => simp [dispatch, hb, htf, hrc]
      | some w => simp [dispatch, hb, htf, hrc]

/-- From the initial state, the decision of a dispatch does not depend on
which user bucket the event is routed to: below the minimum interval the
event is dropped as too frequent, otherwise it is accepted. -/
lemma dispatch_init_any (userId : Option String) (now : Nat) (b : Bool) :
    (dispatch initState userId now b).1 =
      if now < RATE_MIN_INTERVAL_SEC then Decision.droppedFrequent
      else Decision.accepted := by
  have hb : is_blocked initState (extract_user userId) now = false := by
    simp [is_blocked, initState]
  by_cases hfreq : now < RATE_MIN_INTERVAL_SEC
  · have htf : too_frequent initState (extract_user userId) now =
        (true, initState) :=
      too_frequent_pos _ _ _ (by simpa [initState] using hfreq)
    simp [dispatch, hb, htf, hfreq]
  · have htf := too_frequent_neg initState (extract_user userId) now
      (by simpa [initState] using hfreq)
    have hmsg : ((too_frequent initState (extract_user userId) now).2).msg_history
        (extract_user userId) = [] := by
      rw [htf]
      simp [initState]
    have e0 : evictOld now (dequeAppend 60 [] now) = [now] := by
      rw [dequeAppend_small _ _ (by simp)]
      apply evictOld_all_recent
      intro x hx
      simp only [List.nil_append, List.mem_singleton] at hx
      omega
    cases b with
    | false =>
      have hrec := record_eq_msgOk
        (too_frequent initState (extract_user userId) now).2
        (extract_user userId) now
        (by rw [hmsg, e0]; simp [MSG_MAX_PER_MIN])
      simp [dispatch, hb, htf, hfreq]
      rw [show (too_frequent initState (extract_user userId) now).2 =
        (false, (too_frequent initState (extract_user userId) now).2).2
          from rfl] at hrec
      simp only [htf] at hrec
      simp [hrec]
    | true =>
      have himg : ((too_frequent initState (extract_user userId) now).2).img_history
          (extract_user userId) = [] := by
        rw [htf]
        simp [initState]
      have hrec := record_eq_imgOk
        (too_frequent initState (extract_user userId) now).2
        (extract_user userId) now
        (by rw [hmsg, e0]; simp [MSG_MAX_PER_MIN])
        (by rw [himg, e0]; simp [IMG_MAX_PER_MIN])
      simp [dispatch, hb, htf, hfreq]
      rw [show (too_frequent initState (extract_user userId) now).2 =
        (false, (too_frequent initState (extract_user userId) now).2).2
          from rfl] at hrec
      simp only [htf] at hrec
      simp [hrec]

/-- Counterexample to C9 as stated: the pseudo-user bucket is the literal
key `"unknown"`, so it is not independent of a (nonempty-identifier) user
whose identifier happens to be the string `"unknown"`: blocking triggered
under the pseudo-user flips `is_blocked` for that real identifier. -/
theorem unknown_user_counterexample :
    extract_user (some "unknown") = extract_user none ∧
    is_blocked initState "unknown" 0 = false ∧
    is_blocked (block_user initState (extract_user none) 0
      TEMP_BLOCK_MINUTES) "unknown" 0 = true := by
  refine ⟨rfl, rfl, ?_⟩
  decide

/-- Claim C9 (amended): an event whose user identifier is missing or empty
is not an error: it is routed to the fixed pseudo-user bucket `"unknown"`,
the guard operations leave the state of every user with a *different*
identifier unchanged (a user literally named `"unknown"` shares the
bucket, per the counterexample), and from a fresh state such an event is
handled exactly as a first contact from any new user. -/
theorem unknown_user_bucket :
    ∀ userId : Option String, userId = none ∨ userId = some "" →
      extract_user userId = "unknown" ∧
      (∀ (s : GuardState) (now : Nat) (b : Bool) (v : String),
        v ≠ "unknown" →
        (dispatch s userId now b).2.last_msg_time v = s.last_msg_time v ∧
        (dispatch s userId now b).2.msg_history v = s.msg_history v ∧
        (dispatch s userId now b).2.img_history v = s.img_history v ∧
        (dispatch s userId now b).2.blocked_until v = s.blocked_until v) ∧
      (∀ (now : Nat) (b : Bool), (dispatch initState userId now b).1 =
        (dispatch initState (some "U1") now b).1) := by
  intro userId huid
  have hu : extract_user userId = "unknown" := by
    rcases huid with rfl | rfl <;> rfl
  refine ⟨hu, ?_, ?_⟩
  · intro s now b v hv
    have hv' : v ≠ extract_user userId := by
      rw [hu]
      exact hv
    rcases dispatch_state s userId now b with h | h | h
    · rw [h]
      exact ⟨rfl, rfl, rfl, rfl⟩
    · rw [h]
      exact too_frequent_frame s _ now v hv'
    · rw [h]
      have h1 := too_frequent_frame s (extract_user userId) now v hv'
      have h2 := record_frame (too_frequent s (extract_user userId) now).2
        (extract_user userId) now b v hv'
      exact ⟨h2.1.trans h1.1, h2.2.1.trans h1.2.1,
        h2.2.2.1.trans h1.2.2.1, h2.2.2.2.trans h1.2.2.2⟩
  · intro now b
    rw [dispatch_init_any, dispatch_init_any]

/-- Witness for C9 (amended): a missing-identifier event at time 7. -/
theorem unknown_user_bucket_witness :
    extract_user none = "unknown" ∧
    (dispatch initState none 7 false).2.blocked_until "A" =
      initState.blocked_until "A" ∧
    (dispatch initState none 7 false).1 =
      (dispatch initState (some "U1") 7 false).1 :=
  have h := unknown_user_bucket none (Or.inl rfl)
  ⟨h.1, (h.2.1 initState 7 false "A" (by decide)).2.2.2, h.2.2 7 false⟩

end LineBot
